import Mathlib

/-!
# DeckNexus — verification of the AI deck-building pipeline

Shallow embedding of the backend deck-building code
(`backend/src/services/ai/local.provider.ts`,
`backend/src/services/scryfall.service.ts`,
`backend/src/controllers/deckbuilder.controller.ts`) and proofs about it.

Conventions of the embedding:
* JavaScript strings are Lean `String`s; `String.prototype.includes` is
  modelled by `strIncludes` (substring containment), `toLowerCase` by
  `jsToLower`.
* JavaScript `Array.prototype.slice` with a possibly negative end index is
  modelled by `jsTakeTo` (negative indices count from the end, clamped at 0).
* Oracle (LLM) interactions are modelled at the parsed level: an outcome is
  either a `failure` (the HTTP call failed, the response was not parseable
  JSON, or the expected field was missing — all of which land in the same
  `catch` block in the source) or a parsed payload.
* The hard-coded select fractions (0.8, 0.25, 0.3, 0.35) are modelled as
  exact rationals.
* `edhrec_rank` is modelled as a `Nat` where `0` plays the role of
  JavaScript `undefined`/`0` (both falsy in the source's comparator).
-/

set_option maxRecDepth 4000

namespace DeckNexus

/-! ## String helpers (JS `includes`, lowercasing, cleaning) -/

/-- JS `hay.includes(needle)`: `needle` occurs as a contiguous substring. -/
def strIncludes (hay needle : String) : Bool :=
  hay.data.tails.any (fun t => needle.data.isPrefixOf t)

/-- JS `s.toLowerCase()` (character-wise lowercasing). -/
def jsToLower (s : String) : String :=
  String.mk (s.data.map Char.toLower)

/-- The character class `[a-z0-9]` of the regex in `fuzzyMatch`. -/
def isLowerAlnum (c : Char) : Bool :=
  c.isLower || c.isDigit

/-- `name.toLowerCase().replace(/[^a-z0-9]/g, "")` from `fuzzyMatch`. -/
def cleanName (s : String) : String :=
  String.mk ((jsToLower s).data.filter isLowerAlnum)

/-! ## Levenshtein distance (the DP matrix of `levenshteinDistance`)

The source fills an `(len2+1) × (len1+1)` matrix row by row:
`m[0][i] = i`, `m[j][0] = j`,
`m[j][i] = min(m[j][i-1]+1, m[j-1][i]+1, m[j-1][i-1]+cost)`.
`levRowAux`/`levRow` compute row `j` from row `j-1`; the distance is the
last entry of the last row. -/

/-- Fill the tail of a DP row: walk `str1` keeping the remaining entries of
the previous row (`prevTail`), the diagonal entry `diag` = `m[j-1][i-1]`,
and the entry just computed `left` = `m[j][i-1]`. -/
def levRowAux (c2 : Char) : List Char → List Nat → Nat → Nat → List Nat
  | [], _, _, _ => []
  | _ :: _, [], _, _ => []
  | c1 :: cs, up :: rest, diag, left =>
    let cost := if c1 = c2 then 0 else 1
    let cur := min (left + 1) (min (up + 1) (diag + cost))
    cur :: levRowAux c2 cs rest up cur

/-- Compute DP row `j` from row `j-1` (first entry is `m[j][0] = j`). -/
def levRow (c2 : Char) (s1 : List Char) (prev : List Nat) : List Nat :=
  match prev with
  | [] => []
  | d :: rest => (d + 1) :: levRowAux c2 s1 rest d (d + 1)

/-- `levenshteinDistance(str1, str2)` from the local provider. -/
def levenshteinDistance (str1 str2 : String) : Nat :=
  let row0 := List.range (str1.data.length + 1)
  let finalRow := str2.data.foldl (fun prev c2 => levRow c2 str1.data prev) row0
  finalRow.getLastD 0

/-! ## Fuzzy matching and the name-matching policy -/

/-- `fuzzyMatch(name1, name2)` from the local provider: clean both names,
then substring containment either way, or Levenshtein distance below 3. -/
def fuzzyMatch (name1 name2 : String) : Bool :=
  let clean1 := cleanName name1
  let clean2 := cleanName name2
  strIncludes clean1 clean2 || strIncludes clean2 clean1 ||
    (levenshteinDistance clean1 clean2 < 3)

/-- The matching predicate every batch/final selection uses against an
oracle-returned name: case-insensitive substring containment in either
direction, or `fuzzyMatch`. -/
def matchesName (cardName selName : String) : Bool :=
  strIncludes (jsToLower cardName) (jsToLower selName) ||
  strIncludes (jsToLower selName) (jsToLower cardName) ||
  fuzzyMatch cardName selName

/-- The spec-side description of the matching policy, written as ordered
tiers: case-insensitive exact match first, then substring containment in
either direction, then fuzzy matching, the first successful tier winning.
Stated separately from `matchesName` so the two can be compared. -/
def specTieredMatch (cardName selName : String) : Bool :=
  if jsToLower cardName = jsToLower selName then true
  else if strIncludes (jsToLower cardName) (jsToLower selName) ||
          strIncludes (jsToLower selName) (jsToLower cardName) then true
  else fuzzyMatch cardName selName

theorem strIncludes_refl (s : String) : strIncludes s s = true := by
  unfold strIncludes
  cases hd : s.data with
  | nil => simp [List.tails]
  | cons c cs =>
    simp only [List.tails, List.any_cons, Bool.or_eq_true]
    left
    exact List.isPrefixOf_iff_prefix.mpr (List.prefix_refl _)

/-- C5: name reconciliation against the working set. A name equal to a real
card name up to letter case always matches; a name whose cleaned form is
within the distance-below-3 Levenshtein threshold of the card's cleaned
name matches; the unrelated name "Lightning Bolt" does not match
"Sol Ring"; and the code's matching predicate coincides with the tiered
policy (case-insensitive exact, then substring containment either
direction, then fuzzy, first success winning). -/
theorem name_reconciliation_policy :
    (∀ a b : String, jsToLower a = jsToLower b → matchesName a b = true) ∧
    (∀ a b : String, levenshteinDistance (cleanName a) (cleanName b) < 3 →
      matchesName a b = true) ∧
    matchesName "Sol Ring" "Lightning Bolt" = false ∧
    specTieredMatch = matchesName := by
  refine ⟨?_, ?_, by decide, ?_⟩
  · intro a b h
    unfold matchesName
    rw [h, strIncludes_refl]
    simp
  · intro a b h
    unfold matchesName fuzzyMatch
    simp [h]
  · funext a b
    unfold specTieredMatch matchesName
    by_cases h : jsToLower a = jsToLower b
    · rw [if_pos h, h, strIncludes_refl]
      simp
    · rw [if_neg h]
      cases h2 : (strIncludes (jsToLower a) (jsToLower b) ||
          strIncludes (jsToLower b) (jsToLower a)) with
      | true => simp
      | false => simp

/-- Witness for `name_reconciliation_policy`: a case-change of "Sol Ring"
matches, and a one-letter misspelling "Sol Rung" matches. -/
theorem name_reconciliation_policy_witness :
    matchesName "Sol Ring" "SOL RING" = true ∧
    matchesName "Sol Ring" "Sol Rung" = true :=
  ⟨name_reconciliation_policy.1 _ _ (by decide),
   name_reconciliation_policy.2.1 _ _ (by decide)⟩

/-! ## Data model -/

/-- Flattened card projection built by `convertToCardPoolItem`.
`edhrec_rank = 0` models a missing (or zero, equally falsy) rank. -/
structure CardPoolItem where
  name : String
  mana_cost : String
  oracle_text : String
  type_line : String
  power : Option String := none
  toughness : Option String := none
  usd_price : Option ℚ := none
  edhrec_rank : Nat := 0
deriving DecidableEq, Repr

/-! ## Batching (`createBatches`) and the batched reduction -/

/-- Fuelled chunking loop: each step emits `l.take batchSize` and recurses
on `l.drop batchSize`. A fuel of `l.length` always suffices for a positive
batch size, since every step consumes at least one element. -/
def createBatchesFuel (batchSize : Nat) : Nat → List α → List (List α)
  | _, [] => []
  | 0, _ :: _ => []
  | fuel + 1, a :: rest =>
    (a :: rest).take batchSize ::
      createBatchesFuel batchSize fuel ((a :: rest).drop batchSize)

/-- `createBatches(array, batchSize)`: consecutive chunks of `batchSize`.
(The source's `for` loop would not terminate for `batchSize = 0`; the
callers always pass 20 or 30, and we return `[]` in that vacuous case.) -/
def createBatches (batchSize : Nat) (l : List α) : List (List α) :=
  if batchSize = 0 then [] else createBatchesFuel batchSize l.length l

theorem createBatchesFuel_fuel_irrel (batchSize : Nat) (hbs : batchSize ≠ 0) :
    ∀ (fuel₁ fuel₂ : Nat) (l : List α), l.length ≤ fuel₁ → l.length ≤ fuel₂ →
      createBatchesFuel batchSize fuel₁ l = createBatchesFuel batchSize fuel₂ l := by
  intro fuel₁
  induction fuel₁ with
  | zero =>
    intro fuel₂ l h1 _
    have hl : l = [] := List.eq_nil_of_length_eq_zero (Nat.le_zero.mp h1)
    subst hl
    cases fuel₂ <;> rfl
  | succ n ih =>
    intro fuel₂ l h1 h2
    cases l with
    | nil => cases fuel₂ <;> rfl
    | cons a rest =>
      cases fuel₂ with
      | zero => simp at h2
      | succ m =>
        simp only [createBatchesFuel]
        congr 1
        apply ih
        · simp only [List.length_drop, List.length_cons]
          simp only [List.length_cons] at h1
          omega
        · simp only [List.length_drop, List.length_cons]
          simp only [List.length_cons] at h2
          omega

/-- Outcome of one oracle batch call, at the parsed level: `failure` covers
a failed request, unparseable JSON, and a missing expected field (all reach
the same `catch`); `selections` is the parsed list of returned names. -/
inductive BatchOutcome where
  | failure
  | selections (names : List String)

/-- One iteration of the reconciliation loop body: find the first card of
the batch matching the returned name and append it unless already present.
(JS dedups by object identity; cards are modelled up to structural
equality.) -/
def addSelection (batch : List CardPoolItem) (acc : List CardPoolItem)
    (selName : String) : List CardPoolItem :=
  match batch.find? (fun card => matchesName card.name selName) with
  | none => acc
  | some card => if acc.contains card then acc else acc ++ [card]

/-- A select fraction as an exact rational `num/den` (the source\'s
hard-coded 0.8, 0.25, 0.3 and 0.35). -/
structure SelectFraction where
  num : Nat
  den : Nat
deriving DecidableEq, Repr

/-- `Math.ceil(len * num/den)`, computed in natural numbers. -/
def ceilMul (frac : SelectFraction) (len : Nat) : Nat :=
  (len * frac.num + frac.den - 1) / frac.den

/-- The per-batch loop shared by `processBatchedLands`,
`processBatchedCreatures` and `processBatchedSpells`: for batch `i`,
`candidatesPerBatch = ceil(batch.length * frac)`; on a parsed response the
returned names are reconciled and deduplicated, on failure the first
`min(candidatesPerBatch, batch.length)` cards of the batch are taken. -/
def processBatchesGo (frac : SelectFraction) (outcomes : Nat → BatchOutcome) :
    List (List CardPoolItem) → Nat → List CardPoolItem → List CardPoolItem
  | [], _, acc => acc
  | batch :: rest, i, acc =>
    let candidatesPerBatch := ceilMul frac batch.length
    let acc' :=
      match outcomes i with
      | .selections sels => sels.foldl (addSelection batch) acc
      | .failure => acc ++ batch.take (min candidatesPerBatch batch.length)
    processBatchesGo frac outcomes rest (i + 1) acc'

/-- The batched reduction, parameterized by batch size and select fraction
(hard-coded per call site in the source). -/
def processBatchedGeneric (batchSize : Nat) (frac : SelectFraction)
    (outcomes : Nat → BatchOutcome) (items : List CardPoolItem) :
    List CardPoolItem :=
  processBatchesGo frac outcomes (createBatches batchSize items) 0 []

/-- `processBatchedCreatures`: batch size 30, 30% retention. -/
def processBatchedCreatures (outcomes : Nat → BatchOutcome)
    (creatures : List CardPoolItem) : List CardPoolItem :=
  processBatchedGeneric 30 ⟨3, 10⟩ outcomes creatures

/-- `processBatchedSpells`: batch size 30, 35% retention. -/
def processBatchedSpells (outcomes : Nat → BatchOutcome)
    (spells : List CardPoolItem) : List CardPoolItem :=
  processBatchedGeneric 30 ⟨7, 20⟩ outcomes spells

/-- `processBatchedLands`: basic lands batch at size 20 with 80% retention,
non-basic lands at size 30 with 25% retention. -/
def processBatchedLands (isBasic : Bool) (outcomes : Nat → BatchOutcome)
    (lands : List CardPoolItem) : List CardPoolItem :=
  processBatchedGeneric (if isBasic then 20 else 30)
    (if isBasic then ⟨4, 5⟩ else ⟨1, 4⟩) outcomes lands

/-- `Nat.ceil` of a natural division, computed as `(n + d - 1) / d`. -/
theorem natCeil_nat_div (n d : Nat) (hd : 0 < d) :
    Nat.ceil ((n : ℚ) / (d : ℚ)) = (n + d - 1) / d := by
  rcases Nat.eq_zero_or_pos n with rfl | hn
  · rw [Nat.cast_zero, zero_div, Nat.ceil_zero, eq_comm, Nat.div_eq_of_lt]
    omega
  · have hdq : (0 : ℚ) < (d : ℚ) := by exact_mod_cast hd
    have hk0 : (n + d - 1) / d ≠ 0 := by
      have h1 : 1 ≤ (n + d - 1) / d := (Nat.one_le_div_iff hd).mpr (by omega)
      omega
    rw [Nat.ceil_eq_iff hk0]
    have h3 := Nat.div_add_mod (n + d - 1) d
    have h4 := Nat.mod_lt (n + d - 1) hd
    constructor
    · rw [lt_div_iff₀ hdq]
      have h1 : ((n + d - 1) / d) * d ≤ n + d - 1 := Nat.div_mul_le_self _ _
      have h2 : ((n + d - 1) / d - 1) * d = ((n + d - 1) / d) * d - d := by
        rw [Nat.sub_mul, one_mul]
      have hlt : ((n + d - 1) / d - 1) * d < n := by omega
      exact_mod_cast hlt
    · rw [div_le_iff₀ hdq]
      have hle : n ≤ ((n + d - 1) / d) * d := by
        have h5 : d * ((n + d - 1) / d) = ((n + d - 1) / d) * d := Nat.mul_comm _ _
        omega
      exact_mod_cast hle

/-- `ceilMul` agrees with `Nat.ceil` of the exact rational product. -/
theorem ceilMul_eq_natCeil (frac : SelectFraction) (hd : 0 < frac.den)
    (len : Nat) :
    ceilMul frac len =
      Nat.ceil ((len : ℚ) * ((frac.num : ℚ) / (frac.den : ℚ))) := by
  have hcast : (len : ℚ) * ((frac.num : ℚ) / (frac.den : ℚ)) =
      ((len * frac.num : Nat) : ℚ) / (frac.den : ℚ) := by
    push_cast
    ring
  rw [hcast, natCeil_nat_div _ _ hd]
  rfl

theorem take_min_length (l : List α) (n : Nat) :
    l.take (min n l.length) = l.take n := by
  rcases le_or_lt n l.length with h | h
  · rw [min_eq_left h]
  · rw [min_eq_right h.le, List.take_length, List.take_of_length_le h.le]

theorem processBatchesGo_failure (frac : SelectFraction)
    (bs : List (List CardPoolItem)) :
    ∀ (i : Nat) (acc : List CardPoolItem),
      processBatchesGo frac (fun _ => .failure) bs i acc =
        acc ++ (bs.map
          (fun b => b.take (ceilMul frac b.length))).flatten := by
  induction bs with
  | nil => intro i acc; simp [processBatchesGo]
  | cons b rest ih =>
    intro i acc
    rw [processBatchesGo, ih]
    simp [take_min_length, List.append_assoc]

theorem createBatches_cons (batchSize : Nat) (hb : batchSize ≠ 0)
    (a : α) (rest : List α) :
    createBatches batchSize (a :: rest) =
      (a :: rest).take batchSize ::
        createBatches batchSize ((a :: rest).drop batchSize) := by
  simp only [createBatches, if_neg hb, List.length_cons, createBatchesFuel]
  congr 1
  apply createBatchesFuel_fuel_irrel batchSize hb
  · simp only [List.length_drop, List.length_cons]
    omega
  · exact le_rfl

/-- C3: if every oracle batch call fails, the batched reduction is a
deterministic function of the input alone: the concatenation, over
consecutive batches of the given size in input order, of each batch's
first `ceil(batch.length × num/den)` elements; and it is non-empty
whenever the input is non-empty. (The source's batch sizes are 20/30 and
its fractions 0.8/0.25/0.3/0.35, so the hypotheses hold at every call
site.) -/
theorem batched_reduction_all_failures (items : List CardPoolItem)
    (batchSize : Nat) (frac : SelectFraction) (hb : 0 < batchSize)
    (hnum : 0 < frac.num) (hden : 0 < frac.den) :
    processBatchedGeneric batchSize frac (fun _ => .failure) items =
      ((createBatches batchSize items).map
        (fun b => b.take
          (Nat.ceil ((b.length : ℚ) * ((frac.num : ℚ) / (frac.den : ℚ)))))).flatten ∧
    (items ≠ [] →
      processBatchedGeneric batchSize frac (fun _ => .failure) items ≠ []) := by
  have hceq : ∀ b : List CardPoolItem,
      ceilMul frac b.length =
        Nat.ceil ((b.length : ℚ) * ((frac.num : ℚ) / (frac.den : ℚ))) :=
    fun b => ceilMul_eq_natCeil frac hden b.length
  have hmain :
      processBatchedGeneric batchSize frac (fun _ => .failure) items =
        ((createBatches batchSize items).map
          (fun b => b.take (ceilMul frac b.length))).flatten := by
    rw [processBatchedGeneric, processBatchesGo_failure]
    simp
  constructor
  · rw [hmain]
    congr 1
    exact List.map_congr_left (fun b _ => by rw [hceq b])
  · intro hne
    rw [hmain]
    obtain ⟨a, rest, rfl⟩ := List.exists_cons_of_ne_nil hne
    rw [createBatches_cons batchSize hb.ne' a rest]
    have hb0 : (a :: rest).take batchSize ≠ [] := by
      simp [List.take_eq_nil_iff, hb.ne']
    have hlen : 0 < ((a :: rest).take batchSize).length :=
      List.length_pos.mpr hb0
    have hceil : 0 < ceilMul frac ((a :: rest).take batchSize).length := by
      unfold ceilMul
      have h1 : 1 ≤ ((a :: rest).take batchSize).length * frac.num :=
        Nat.one_le_iff_ne_zero.mpr (Nat.mul_ne_zero hlen.ne' hnum.ne')
      exact (Nat.one_le_div_iff hden).mpr (by omega)
    have htake : ((a :: rest).take batchSize).take
        (ceilMul frac ((a :: rest).take batchSize).length) ≠ [] := by
      intro hc
      rcases List.take_eq_nil_iff.mp hc with h | h
      · exact hceil.ne' h
      · exact hb0 h
    simp only [List.map_cons, List.flatten_cons]
    intro hcontra
    rw [List.append_eq_nil] at hcontra
    exact htake hcontra.1

/-- Witness for `batched_reduction_all_failures`: a two-card list at batch
size 30 and fraction 0.3 reduces, under total oracle failure, to a
non-empty candidate list (its first `ceil(2 * 0.3) = 1` card). -/
theorem batched_reduction_all_failures_witness :
    processBatchedGeneric 30 ⟨3, 10⟩ (fun _ => .failure)
        [{ name := "Sol Ring", mana_cost := "\x7b1\x7d", oracle_text := "",
           type_line := "Artifact" },
         { name := "Arcane Signet", mana_cost := "\x7b2\x7d", oracle_text := "",
           type_line := "Artifact" }] ≠ [] :=
  (batched_reduction_all_failures _ 30 ⟨3, 10⟩ (by decide) (by decide)
    (by decide)).2 (by decide)

/-! ## Remaining data model -/

/-- Minimal projection of a Scryfall card record (the fields the embedded
code reads). `color_identity = none` models a record missing the field. -/
structure Card where
  name : String := ""
  type_line : String := ""
  oracle_text : String := ""
  color_identity : Option (List Char) := some []
deriving DecidableEq, Repr

/-- One strategy of a commander plan (name plus descriptive fields). -/
structure Strategy where
  name : String
  description : String
  winConditions : List String
  archetypes : List String
  keyThemes : List String
deriving DecidableEq, Repr

/-- A strategy together with its rank, as parsed from the oracle JSON. -/
structure RankedStrategy where
  rank : Int
  strategy : Strategy
deriving DecidableEq, Repr

/-- The object `generateCommanderPlan` returns (including the legacy
compatibility fields copied from the primary strategy). -/
structure CommanderPlan where
  rankedStrategies : List RankedStrategy
  primaryStrategy : Strategy
  winConditions : List String
  archetypes : List String
  strategy : String
  keyThemes : List String
deriving DecidableEq, Repr

/-- Stage-2 output. `manaBase` is the `Record<color, int>` as a function. -/
structure LandPool where
  basics : List CardPoolItem
  nonBasics : List CardPoolItem
  totalLands : Nat
  manaBase : Char → Nat

/-- Stage-3 output. -/
structure CreaturePool where
  creatures : List CardPoolItem
  totalCreatures : Nat
  categoryBreakdown : String → Nat

/-- Stage-4 output. -/
structure SpellPool where
  spells : List CardPoolItem
  totalSpells : Nat
  categoryBreakdown : String → Nat

/-- Stage-5 output: the final deck. -/
structure FinalDeck where
  commander : Card
  lands : List CardPoolItem
  creatures : List CardPoolItem
  spells : List CardPoolItem
  totalCards : Nat
  manaCurve : Nat → Nat
  colorDistribution : Char → Nat

/-! ## JS array helpers -/

/-- JS `l.slice(0, e)` where `e` may be negative (counts from the end,
clamped at zero). -/
def jsTakeTo (l : List α) (e : Int) : List α :=
  if e < 0 then l.take ((l.length : Int) + e).toNat else l.take e.toNat

/-- The comparator of `sortByEDHRank`. JS truthiness makes a rank of `0`
behave like a missing rank, hence the `≠ 0` tests. -/
def edhCompare (a b : CardPoolItem) : Int :=
  if a.edhrec_rank ≠ 0 ∧ b.edhrec_rank ≠ 0 then
    (a.edhrec_rank : Int) - (b.edhrec_rank : Int)
  else if a.edhrec_rank ≠ 0 ∧ b.edhrec_rank = 0 then -1
  else if a.edhrec_rank = 0 ∧ b.edhrec_rank ≠ 0 then 1
  else 0

/-- Stable insertion step: place `a` before the first element it does not
compare strictly greater than. -/
def insertByRank (a : CardPoolItem) : List CardPoolItem → List CardPoolItem
  | [] => [a]
  | b :: l => if edhCompare a b ≤ 0 then a :: b :: l else b :: insertByRank a l

/-- `sortByEDHRank`: a stable sort by `edhCompare` (V8's `Array.sort` is
stable; embedded as stable insertion sort). -/
def sortByEDHRank (cards : List CardPoolItem) : List CardPoolItem :=
  cards.foldr insertByRank []

/-! ## The local provider's request path (`makeRequest`, `getMockResponse`) -/

/-- Outcome of the HTTP call inside `makeRequest`'s `try`: `failed` covers
a network error, a timeout abort, a non-ok status and an unparseable body
(all reach the same `catch`); `ok` carries the returned message content. -/
inductive HttpOutcome where
  | failed
  | ok (content : String)
deriving DecidableEq, Repr

/-- The fixed three-strategy JSON `getMockResponse` returns for
commander-plan prompts (`JSON.stringify` of the object literal in the
source, braces written as `\x7b`/`\x7d`). -/
def mockCommanderPlanJson : String :=
  "\x7b\"rankedStrategies\":[\x7b\"rank\":1,\"name\":\"Value Engine\",\"description\":\"Build a solid midrange deck with good creatures and value spells\",\"winConditions\":[\"Combat damage\",\"Value engine\"],\"archetypes\":[\"Midrange\",\"Value\"],\"keyThemes\":[\"Card advantage\",\"Efficient threats\"]\x7d,\x7b\"rank\":2,\"name\":\"Aggressive Beatdown\",\"description\":\"Fast aggressive strategy with efficient threats\",\"winConditions\":[\"Combat damage\"],\"archetypes\":[\"Aggro\"],\"keyThemes\":[\"Speed\",\"Pressure\"]\x7d,\x7b\"rank\":3,\"name\":\"Control Plan\",\"description\":\"Late game control with card advantage\",\"winConditions\":[\"Control win\"],\"archetypes\":[\"Control\"],\"keyThemes\":[\"Card draw\",\"Removal\"]\x7d]\x7d"

/-- `getMockResponse(prompt)`: the fixed plan JSON for commander-plan
prompts, `"{}"` for everything else. -/
def getMockResponse (prompt : String) : String :=
  if strIncludes prompt "commander plan" || strIncludes prompt "rankedStrategies" then
    mockCommanderPlanJson
  else "\x7b\x7d"

/-- `makeRequest(messages)`: messages are modelled by their content strings
(the role is always `"user"`); the prompt handed to the mock is
`messages[0]?.content || ""`. -/
def makeRequest (available : Bool) (out : HttpOutcome)
    (messages : List String) : String :=
  if available then
    match out with
    | .failed => getMockResponse (messages.headD "")
    | .ok content => content
  else getMockResponse (messages.headD "")

/-- C10: the local provider's request function is total (this embedding is
a Lean function, mirroring that every failure path is caught) and, whenever
the service is unavailable or the HTTP call fails/times out, returns the
deterministic mock: the fixed three-strategy JSON when the first message
mentions a commander plan, `"{}"` otherwise. -/
theorem makeRequest_failure_returns_mock :
    (∀ (available : Bool) (out : HttpOutcome) (messages : List String),
      available = false ∨ out = HttpOutcome.failed →
      makeRequest available out messages =
        if strIncludes (messages.headD "") "commander plan" ||
           strIncludes (messages.headD "") "rankedStrategies" then
          mockCommanderPlanJson
        else "\x7b\x7d") ∧
    (∀ content messages,
      makeRequest true (HttpOutcome.ok content) messages = content) := by
  constructor
  · rintro available out messages (rfl | rfl)
    · rfl
    · cases available <;> rfl
  · intro content messages
    rfl

/-- Witness for `makeRequest_failure_returns_mock`: an unavailable service
yields `"{}"` for a non-plan prompt, and a failed HTTP call yields the plan
JSON for a prompt mentioning `rankedStrategies`. -/
theorem makeRequest_failure_returns_mock_witness :
    makeRequest false (HttpOutcome.ok "ignored") ["pick the best lands"] =
      "\x7b\x7d" ∧
    makeRequest true HttpOutcome.failed
      ["return JSON with rankedStrategies"] = mockCommanderPlanJson := by
  constructor
  · rw [makeRequest_failure_returns_mock.1 false (HttpOutcome.ok "ignored")
      ["pick the best lands"] (Or.inl rfl)]
    decide
  · rw [makeRequest_failure_returns_mock.1 true HttpOutcome.failed
      ["return JSON with rankedStrategies"] (Or.inr rfl)]
    decide

/-! ## Stage 1: `generateCommanderPlan` -/

/-- Outcome of parsing the oracle response in `generateCommanderPlan`:
`failure` covers an unparseable body and a missing `rankedStrategies`
field (the property access throws and is caught); `parsed` carries the
parsed strategy list. -/
inductive PlanOutcome where
  | failure
  | parsed (strategies : List RankedStrategy)
deriving DecidableEq, Repr

/-- The fallback primary strategy, built from the commander's name. -/
def fallbackStrategy (commanderName : String) : Strategy :=
  { name := "Value Engine"
    description :=
      "Build around " ++ commanderName ++ "\x27s abilities for incremental advantage"
    winConditions := ["Combat damage", "Value engine"]
    archetypes := ["Midrange"]
    keyThemes := ["Synergy", "Card advantage"] }

/-- The deterministic fallback plan of `generateCommanderPlan`'s `catch`. -/
def fallbackPlan (commanderName : String) : CommanderPlan :=
  let fb := fallbackStrategy commanderName
  { rankedStrategies :=
      [ { rank := 1, strategy := fb },
        { rank := 2, strategy :=
          { name := "Aggro", description := "Fast pressure"
            winConditions := ["Combat damage"], archetypes := ["Aggro"]
            keyThemes := ["Speed"] } },
        { rank := 3, strategy :=
          { name := "Control", description := "Late game control"
            winConditions := ["Control win"], archetypes := ["Control"]
            keyThemes := ["Card draw"] } } ]
    primaryStrategy := fb
    winConditions := fb.winConditions
    archetypes := fb.archetypes
    strategy := fb.description
    keyThemes := fb.keyThemes }

/-- `generateCommanderPlan`. On a parsed response the strategies are used
as returned; the primary is the first entry with `rank === 1`, or the
first entry. An empty parsed list makes the primary `undefined`, whose
property access throws into the same `catch` as a parse failure, yielding
the fallback plan. -/
def generateCommanderPlan (commanderName : String) (outcome : PlanOutcome) :
    CommanderPlan :=
  match outcome with
  | .parsed (s :: rest) =>
    let primary := (((s :: rest).find? (fun r => r.rank == 1)).getD s).strategy
    { rankedStrategies := s :: rest
      primaryStrategy := primary
      winConditions := primary.winConditions
      archetypes := primary.archetypes
      strategy := primary.description
      keyThemes := primary.keyThemes }
  | .parsed [] => fallbackPlan commanderName
  | .failure => fallbackPlan commanderName

/-- C7 counterexample: a parseable oracle response carrying only two
strategies yields a plan with two ranked strategies, not three. -/
theorem commander_plan_not_always_three :
    (generateCommanderPlan "Edgar Markov"
      (PlanOutcome.parsed
        [ { rank := 1, strategy :=
            { name := "Vampire Tribal", description := "Go wide"
              winConditions := ["Combat damage"], archetypes := ["Midrange"]
              keyThemes := ["Tribal"] } },
          { rank := 2, strategy :=
            { name := "Aristocrats", description := "Drain"
              winConditions := ["Drain"], archetypes := ["Aggro"]
              keyThemes := ["Sacrifice"] } } ])).rankedStrategies.length ≠ 3 := by
  decide

/-- C7 amended: the fallback plan (parse failure, or an empty parsed
strategy list) has exactly 3 ranked strategies — rank 1 midrange/value
built from the commander's name, rank 2 aggro, rank 3 control — and its
rank-1 strategy is the primary strategy; Stage 1 is total, so it never
halts the pipeline. On a non-empty parsed response, the plan contains
exactly the strategies the oracle returned (however many), and the primary
is the first rank-1 entry, or the first entry when none has rank 1. -/
theorem commander_plan_amended :
    (∀ name : String,
      (generateCommanderPlan name PlanOutcome.failure).rankedStrategies.length = 3 ∧
      (generateCommanderPlan name PlanOutcome.failure).rankedStrategies.map
        (fun r => r.rank) = [1, 2, 3] ∧
      (generateCommanderPlan name PlanOutcome.failure).rankedStrategies.map
        (fun r => r.strategy.archetypes) = [["Midrange"], ["Aggro"], ["Control"]] ∧
      ((generateCommanderPlan name PlanOutcome.failure).rankedStrategies.find?
        (fun r => r.rank == 1)).map (fun r => r.strategy) =
          some (generateCommanderPlan name PlanOutcome.failure).primaryStrategy ∧
      (generateCommanderPlan name PlanOutcome.failure).strategy =
        "Build around " ++ name ++ "\x27s abilities for incremental advantage") ∧
    (∀ name : String,
      generateCommanderPlan name (PlanOutcome.parsed []) =
        generateCommanderPlan name PlanOutcome.failure) ∧
    (∀ (name : String) (s : RankedStrategy) (rest : List RankedStrategy),
      (generateCommanderPlan name (PlanOutcome.parsed (s :: rest))).rankedStrategies
        = s :: rest ∧
      (generateCommanderPlan name (PlanOutcome.parsed (s :: rest))).primaryStrategy
        = (((s :: rest).find? (fun r => r.rank == 1)).getD s).strategy) :=
  ⟨fun _ => ⟨rfl, rfl, rfl, rfl, rfl⟩, fun _ => rfl, fun _ _ _ => ⟨rfl, rfl⟩⟩

/-! ## Stage 4: `addSpells` / `finalSpellSelection` -/

/-- The category the `categorizeSpells` if/else chain assigns a spell to
(each spell lands in exactly one bucket; "Win Conditions" is never hit). -/
def spellCategory (spell : CardPoolItem) : String :=
  let lowerText := jsToLower (spell.oracle_text ++ spell.type_line)
  if strIncludes lowerText "destroy" || strIncludes lowerText "exile" then
    "Removal"
  else if strIncludes lowerText "draw" || strIncludes lowerText "search" then
    "Card Draw"
  else if strIncludes lowerText "mana" || strIncludes lowerText "land" then
    "Ramp"
  else if strIncludes lowerText "counter" || strIncludes lowerText "protect" then
    "Protection"
  else "Utility"

/-- `categorizeSpells`, as the category-count map. -/
def categorizeSpells (spells : List CardPoolItem) (category : String) : Nat :=
  (spells.filter (fun s => spellCategory s = category)).length

/-- `finalSpellSelection(spellCandidates, …, remainingSlots)`.
`remainingSlots` is a JS number that may be negative. On a parsed
response the returned names are reconciled and deduplicated, then the
shortfall (if the count is below `remainingSlots`) is filled from the
unused candidates in order. On failure the fallback is
`spellCandidates.slice(0, remainingSlots)` — with JS semantics for a
negative end index. -/
def finalSpellSelection (spellCandidates : List CardPoolItem)
    (remainingSlots : Int) (outcome : BatchOutcome) : SpellPool :=
  match outcome with
  | .selections sels =>
    let selected := sels.foldl (addSelection spellCandidates) []
    let selected :=
      if (selected.length : Int) < remainingSlots then
        selected ++ (spellCandidates.filter (fun s => !selected.contains s)).take
          (remainingSlots - selected.length).toNat
      else selected
    { spells := selected
      totalSpells := selected.length
      categoryBreakdown := categorizeSpells selected }
  | .failure =>
    let selected := jsTakeTo spellCandidates remainingSlots
    { spells := selected
      totalSpells := selected.length
      categoryBreakdown := categorizeSpells selected }

/-- `addSpells`: filter the pool to non-creature, non-land cards, sort by
EDHRec rank, compute `remainingSlots = 99 − totalLands − totalCreatures`,
run the batched reduction (batch size 30 at 35%), then the final
selection. -/
def addSpells (_plan : CommanderPlan) (lands : LandPool)
    (creatures : CreaturePool) (cardPool : List CardPoolItem)
    (batchOutcomes : Nat → BatchOutcome) (finalOutcome : BatchOutcome) :
    SpellPool :=
  let spells := sortByEDHRank (cardPool.filter (fun card =>
    !(strIncludes (jsToLower card.type_line) "creature") &&
    !(strIncludes (jsToLower card.type_line) "land")))
  let remainingSlots : Int :=
    99 - (lands.totalLands : Int) - (creatures.totalCreatures : Int)
  let spellCandidates := processBatchedSpells batchOutcomes spells
  finalSpellSelection spellCandidates remainingSlots finalOutcome

/-- A small named spell card used in concrete runs. -/
def sampleSpell (n : String) : CardPoolItem :=
  { name := n, mana_cost := "\x7b1\x7d", oracle_text := "", type_line := "Instant" }

/-- A basic Forest used in concrete runs. -/
def basicForest : CardPoolItem :=
  { name := "Forest", mana_cost := "", oracle_text := "", type_line := "Basic Land" }

/-- A vanilla creature used in concrete runs. -/
def grizzlyBears : CardPoolItem :=
  { name := "Grizzly Bears", mana_cost := "\x7b1\x7d\x7bG\x7d", oracle_text := ""
    type_line := "Creature" }

/-- A land pool of 60 basics (fields consistent with the lists). -/
def lands60 : LandPool :=
  { basics := List.replicate 60 basicForest, nonBasics := []
    totalLands := 60, manaBase := fun _ => 0 }

/-- A creature pool of 40 creatures (fields consistent with the lists). -/
def creatures40 : CreaturePool :=
  { creatures := List.replicate 40 grizzlyBears, totalCreatures := 40
    categoryBreakdown := fun _ => 0 }

/-- C4 counterexample: with 60 lands and 40 creatures (99 already
exceeded, target `99 − 60 − 40 = −1`) and the oracle failing, the spell
stage does not select zero spells: JS `slice(0, -1)` keeps all but the
last candidate, so one spell is selected out of the two candidates that
survive batching from a four-spell pool. -/
theorem spell_stage_negative_target_not_zero :
    (addSpells (fallbackPlan "X") lands60 creatures40
      [sampleSpell "A", sampleSpell "B", sampleSpell "C", sampleSpell "D"]
      (fun _ => BatchOutcome.failure) BatchOutcome.failure).spells.length = 1 := by
  decide

/-- C4 amended: the spell stage's target count equals
`99 − totalLands − totalCreatures` as a (possibly negative) integer, and a
negative target is *not* clamped to zero: the oracle-failure fallback
applies JS `slice(0, target)` semantics and selects
`max(candidates + target, 0)` spells; zero spells are only guaranteed on
the oracle path when nothing is reconciled and the target is not
positive. -/
theorem spell_stage_amended :
    (∀ plan lands creatures pool bo fo,
      addSpells plan lands creatures pool bo fo =
        finalSpellSelection
          (processBatchedSpells bo (sortByEDHRank (pool.filter (fun card =>
            !(strIncludes (jsToLower card.type_line) "creature") &&
            !(strIncludes (jsToLower card.type_line) "land")))))
          (99 - (lands.totalLands : Int) - (creatures.totalCreatures : Int))
          fo) ∧
    (∀ (candidates : List CardPoolItem) (slots : Int), slots < 0 →
      (((finalSpellSelection candidates slots
          BatchOutcome.failure).spells.length : Int))
        = max ((candidates.length : Int) + slots) 0) ∧
    (∀ (candidates : List CardPoolItem) (slots : Int), slots ≤ 0 →
      (finalSpellSelection candidates slots
        (BatchOutcome.selections [])).spells = []) := by
  refine ⟨fun _ _ _ _ _ _ => rfl, ?_, ?_⟩
  · intro candidates slots hslots
    simp only [finalSpellSelection, jsTakeTo, if_pos hslots, List.length_take]
    omega
  · intro candidates slots hslots
    have hng : ¬((([] : List CardPoolItem).length : Int) < slots) := by
      simp only [List.length_nil, Nat.cast_zero]
      omega
    simp only [finalSpellSelection, List.foldl_nil, if_neg hng]

/-- Witness for `spell_stage_amended`: two candidates at target −1 yield
`max(2 − 1, 0) = 1` selected spell on the fallback path, and zero on the
oracle path when nothing reconciles. -/
theorem spell_stage_amended_witness :
    (((finalSpellSelection [sampleSpell "A", sampleSpell "B"] (-1)
        BatchOutcome.failure).spells.length : Int)) = max ((2 : Int) + -1) 0 ∧
    (finalSpellSelection [sampleSpell "A", sampleSpell "B"] (-1)
        (BatchOutcome.selections [])).spells = [] :=
  ⟨spell_stage_amended.2.1 [sampleSpell "A", sampleSpell "B"] (-1) (by decide),
   spell_stage_amended.2.2 [sampleSpell "A", sampleSpell "B"] (-1) (by decide)⟩

/-! ## Stage 5: `optimizeCuts` -/

/-- One oracle-named cut: a card name tagged with its list. -/
structure OracleCut where
  cardName : String
  cardType : String
deriving DecidableEq, Repr

/-- Outcome of the cut-stage oracle call: `failure` covers a failed
request, unparseable JSON or a missing `cutsToMake` field; `cuts` carries
the parsed list of named cuts. -/
inductive CutsOutcome where
  | failure
  | cuts (l : List OracleCut)

/-- The predicate `optimizeCuts` matches a named cut against a working
list with: one-directional case-insensitive containment, or fuzzy match. -/
def cutMatches (itemName cutName : String) : Bool :=
  strIncludes (jsToLower itemName) (jsToLower cutName) ||
    fuzzyMatch itemName cutName

/-- The body of one iteration of the named-cut loop: dispatch on the
cut's (lowercased) card type, remove the first matching card of the
corresponding list (`findIndex` + `splice`), counting the cut if found. -/
def applyOneCut (cut : OracleCut) (L C S : List CardPoolItem)
    (applied : Nat) :
    List CardPoolItem × List CardPoolItem × List CardPoolItem × Nat :=
  let ty := jsToLower cut.cardType
  if ty = "land" then
    if L.any (fun land => cutMatches land.name cut.cardName) then
      (L.eraseP (fun land => cutMatches land.name cut.cardName), C, S,
        applied + 1)
    else (L, C, S, applied)
  else if ty = "creature" then
    if C.any (fun creature => cutMatches creature.name cut.cardName) then
      (L, C.eraseP (fun creature => cutMatches creature.name cut.cardName), S,
        applied + 1)
    else (L, C, S, applied)
  else if ty = "spell" then
    if S.any (fun spell => cutMatches spell.name cut.cardName) then
      (L, C, S.eraseP (fun spell => cutMatches spell.name cut.cardName),
        applied + 1)
    else (L, C, S, applied)
  else (L, C, S, applied)

/-- The named-cut loop: stop once `excess` cuts are applied, else run one
iteration and continue. -/
def applyNamedCuts (excess : Nat) :
    List OracleCut → List CardPoolItem → List CardPoolItem →
    List CardPoolItem → Nat →
    List CardPoolItem × List CardPoolItem × List CardPoolItem × Nat
  | [], L, C, S, applied => (L, C, S, applied)
  | cut :: rest, L, C, S, applied =>
    if applied ≥ excess then (L, C, S, applied)
    else
      let r := applyOneCut cut L C S applied
      applyNamedCuts excess rest r.1 r.2.1 r.2.2.1 r.2.2.2

/-- The mechanical trim after insufficient named cuts: drop the first
`remaining` spells if enough remain, otherwise drop all spells and then
the first `remaining − spells` creatures. Lands are never trimmed here. -/
def mechanicalTrim (remaining : Nat) (C S : List CardPoolItem) :
    List CardPoolItem × List CardPoolItem :=
  if S.length ≥ remaining then (C, S.drop remaining)
  else (C.drop (remaining - S.length), [])

/-- The first maximal digit run of a string, if any (regex `/\d+/`). -/
def firstDigitRun : List Char → Option (List Char)
  | [] => none
  | c :: cs =>
    if c.isDigit then some (c :: cs.takeWhile Char.isDigit)
    else firstDigitRun cs

/-- `parseInt` on a digit run. -/
def parseDigits (ds : List Char) : Nat :=
  ds.foldl (fun n c => n * 10 + (c.toNat - 48)) 0

/-- The mana value `optimizeCuts` derives for the curve: the first integer
in the cost text, else 0 (colored pips are not counted here). -/
def extractCurveCMC (manaCost : String) : Nat :=
  match firstDigitRun manaCost.data with
  | none => 0
  | some ds => parseDigits ds

/-- The `manaCurve` map over the final creatures++spells. -/
def manaCurveOf (cards : List CardPoolItem) (cmc : Nat) : Nat :=
  (cards.filter (fun card => extractCurveCMC card.mana_cost = cmc)).length

/-- The `colorDistribution` map: one count per `[WUBRG]` character
occurrence in cost text across the final creatures++spells. -/
def colorDistributionOf (cards : List CardPoolItem) (c : Char) : Nat :=
  if c ∈ (['W', 'U', 'B', 'R', 'G'] : List Char) then
    (cards.map (fun card => card.mana_cost.data.count c)).sum
  else 0

/-- `optimizeCuts`. If the pools carry more than 99 cards, apply up to
`excess` reconcilable named cuts then the mechanical trim; on oracle
failure use the strategy-based fallback cuts (`slice` with possibly
negative indices); if not over 99, leave the lists untouched. Finally
compute the curve and color statistics and the total. -/
def optimizeCuts (plan : CommanderPlan) (lands : LandPool)
    (creatures : CreaturePool) (spells : SpellPool) (commander : Card)
    (outcome : CutsOutcome) : FinalDeck :=
  let totalNonCommander :=
    lands.totalLands + creatures.totalCreatures + spells.totalSpells
  let L0 := lands.basics ++ lands.nonBasics
  let C0 := creatures.creatures
  let S0 := spells.spells
  let trimmed :=
    if totalNonCommander > 99 then
      let excess := totalNonCommander - 99
      match outcome with
      | .cuts cs =>
        let r := applyNamedCuts excess cs L0 C0 S0 0
        if r.2.2.2 < excess then
          let m := mechanicalTrim (excess - r.2.2.2) r.2.1 r.2.2.1
          (r.1, m.1, m.2)
        else (r.1, r.2.1, r.2.2.1)
      | .failure =>
        let isAggro := plan.primaryStrategy.archetypes.any
          (fun arch => strIncludes (jsToLower arch) "aggro")
        if isAggro then
          let S1 := S0.take (S0.length - min excess S0.length)
          let remaining : Int :=
            (excess : Int) - ((spells.totalSpells : Int) - (S1.length : Int))
          if remaining > 0 then
            (L0, jsTakeTo C0 ((C0.length : Int) - remaining), S1)
          else (L0, C0, S1)
        else
          (L0, C0, jsTakeTo S0 ((S0.length : Int) - (excess : Int)))
    else (L0, C0, S0)
  { commander := commander
    lands := trimmed.1
    creatures := trimmed.2.1
    spells := trimmed.2.2
    totalCards :=
      trimmed.1.length + trimmed.2.1.length + trimmed.2.2.length + 1
    manaCurve := manaCurveOf (trimmed.2.1 ++ trimmed.2.2)
    colorDistribution := colorDistributionOf (trimmed.2.1 ++ trimmed.2.2) }

theorem eraseP_any_length (l : List CardPoolItem) (p : CardPoolItem → Bool)
    (h : l.any p = true) : (l.eraseP p).length + 1 = l.length := by
  obtain ⟨x, hx, hpx⟩ := List.any_eq_true.mp h
  have hlen := List.length_eraseP_of_mem (p := p) hx hpx
  have hpos : 0 < l.length := List.length_pos.mpr (List.ne_nil_of_mem hx)
  omega

theorem applyOneCut_conserve (cut : OracleCut) (L C S : List CardPoolItem)
    (a : Nat) :
    (applyOneCut cut L C S a).1.length + (applyOneCut cut L C S a).2.1.length +
      (applyOneCut cut L C S a).2.2.1.length + (applyOneCut cut L C S a).2.2.2 =
      L.length + C.length + S.length + a ∧
    a ≤ (applyOneCut cut L C S a).2.2.2 ∧
    (applyOneCut cut L C S a).2.2.2 ≤ a + 1 := by
  by_cases h1 : jsToLower cut.cardType = "land"
  · by_cases h2 : L.any (fun land => cutMatches land.name cut.cardName) = true
    · have hlen := eraseP_any_length L _ h2
      simp only [applyOneCut]
      rw [if_pos h1, if_pos h2]
      dsimp only
      exact ⟨by omega, Nat.le_succ a, le_refl (a + 1)⟩
    · simp only [applyOneCut]
      rw [if_pos h1, if_neg h2]
      exact ⟨rfl, le_refl a, Nat.le_succ a⟩
  · by_cases h3 : jsToLower cut.cardType = "creature"
    · by_cases h4 :
        C.any (fun creature => cutMatches creature.name cut.cardName) = true
      · have hlen := eraseP_any_length C _ h4
        simp only [applyOneCut]
        rw [if_neg h1, if_pos h3, if_pos h4]
        dsimp only
        exact ⟨by omega, Nat.le_succ a, le_refl (a + 1)⟩
      · simp only [applyOneCut]
        rw [if_neg h1, if_pos h3, if_neg h4]
        exact ⟨rfl, le_refl a, Nat.le_succ a⟩
    · by_cases h5 : jsToLower cut.cardType = "spell"
      · by_cases h6 :
          S.any (fun spell => cutMatches spell.name cut.cardName) = true
        · have hlen := eraseP_any_length S _ h6
          simp only [applyOneCut]
          rw [if_neg h1, if_neg h3, if_pos h5, if_pos h6]
          dsimp only
          exact ⟨by omega, Nat.le_succ a, le_refl (a + 1)⟩
        · simp only [applyOneCut]
          rw [if_neg h1, if_neg h3, if_pos h5, if_neg h6]
          exact ⟨rfl, le_refl a, Nat.le_succ a⟩
      · simp only [applyOneCut]
        rw [if_neg h1, if_neg h3, if_neg h5]
        exact ⟨rfl, le_refl a, Nat.le_succ a⟩

theorem applyNamedCuts_conserve (excess : Nat) (cs : List OracleCut) :
    ∀ (L C S : List CardPoolItem) (a : Nat), a ≤ excess →
      (applyNamedCuts excess cs L C S a).1.length +
        (applyNamedCuts excess cs L C S a).2.1.length +
        (applyNamedCuts excess cs L C S a).2.2.1.length +
        (applyNamedCuts excess cs L C S a).2.2.2 =
        L.length + C.length + S.length + a ∧
      a ≤ (applyNamedCuts excess cs L C S a).2.2.2 ∧
      (applyNamedCuts excess cs L C S a).2.2.2 ≤ excess := by
  induction cs with
  | nil =>
    intro L C S a ha
    exact ⟨rfl, le_refl a, ha⟩
  | cons cut rest ih =>
    intro L C S a ha
    rw [applyNamedCuts]
    by_cases hge : a ≥ excess
    · rw [if_pos hge]
      exact ⟨rfl, le_refl a, ha⟩
    · rw [if_neg hge]
      dsimp only
      obtain ⟨hstep, hstep1, hstep2⟩ := applyOneCut_conserve cut L C S a
      obtain ⟨hrec, hrec1, hrec2⟩ := ih (applyOneCut cut L C S a).1
        (applyOneCut cut L C S a).2.1 (applyOneCut cut L C S a).2.2.1
        (applyOneCut cut L C S a).2.2.2 (by omega)
      exact ⟨by omega, by omega, hrec2⟩

/-- An empty land pool. -/
def emptyLands : LandPool :=
  { basics := [], nonBasics := [], totalLands := 0, manaBase := fun _ => 0 }

/-- An empty creature pool. -/
def emptyCreatures : CreaturePool :=
  { creatures := [], totalCreatures := 0, categoryBreakdown := fun _ => 0 }

/-- An empty spell pool. -/
def emptySpells : SpellPool :=
  { spells := [], totalSpells := 0, categoryBreakdown := fun _ => 0 }

/-- C1 counterexample: a successful build whose stage outputs are all
empty (a degenerate but reachable composition — the cut stage pads
nothing) returns a FinalDeck with `totalCards = 1`, not 100. -/
theorem final_deck_total_not_always_100 :
    (optimizeCuts (fallbackPlan "X") emptyLands emptyCreatures emptySpells
      {} CutsOutcome.failure).totalCards ≠ 100 := by
  decide

/-- C1 amended: every FinalDeck satisfies
`totalCards = lands.length + creatures.length + spells.length + 1`, but
`totalCards = 100` is not unconditional: it holds when the stage inputs
carry exactly 99 cards (nothing is cut), and when they carry more than 99
with the cut stage able to remove the full excess (for instance the
oracle-failure, non-aggro path with the excess at most the spell count);
undersized inputs are not padded, so `totalCards` can fall short of 100. -/
theorem final_deck_amended :
    (∀ plan lands creatures spells commander outcome,
      (optimizeCuts plan lands creatures spells commander outcome).totalCards =
        (optimizeCuts plan lands creatures spells commander outcome).lands.length +
        (optimizeCuts plan lands creatures spells commander outcome).creatures.length +
        (optimizeCuts plan lands creatures spells commander outcome).spells.length
          + 1) ∧
    (∀ plan lands creatures spells commander outcome,
      lands.totalLands = lands.basics.length + lands.nonBasics.length →
      creatures.totalCreatures = creatures.creatures.length →
      spells.totalSpells = spells.spells.length →
      lands.totalLands + creatures.totalCreatures + spells.totalSpells = 99 →
      (optimizeCuts plan lands creatures spells commander outcome).totalCards
        = 100) ∧
    (∀ plan lands creatures spells commander,
      lands.totalLands = lands.basics.length + lands.nonBasics.length →
      creatures.totalCreatures = creatures.creatures.length →
      spells.totalSpells = spells.spells.length →
      99 < lands.totalLands + creatures.totalCreatures + spells.totalSpells →
      plan.primaryStrategy.archetypes.any
        (fun arch => strIncludes (jsToLower arch) "aggro") = false →
      lands.totalLands + creatures.totalCreatures + spells.totalSpells - 99 ≤
        spells.spells.length →
      (optimizeCuts plan lands creatures spells commander
        CutsOutcome.failure).totalCards = 100) := by
  refine ⟨fun _ _ _ _ _ _ => rfl, ?_, ?_⟩
  · intro plan lands creatures spells commander outcome hl hc hs hpre
    simp only [optimizeCuts]
    rw [if_neg (by omega :
      ¬(lands.totalLands + creatures.totalCreatures + spells.totalSpells > 99))]
    simp only [FinalDeck.totalCards, List.length_append]
    omega
  · intro plan lands creatures spells commander hl hc hs hover haggro hexcess
    simp only [optimizeCuts]
    rw [if_pos (by omega :
      lands.totalLands + creatures.totalCreatures + spells.totalSpells > 99)]
    rw [haggro]
    simp only [Bool.false_eq_true, if_false, jsTakeTo, FinalDeck.totalCards]
    rw [if_neg (by omega :
      ¬((spells.spells.length : Int) -
        ((lands.totalLands + creatures.totalCreatures + spells.totalSpells
          - 99 : Nat) : Int) < 0))]
    simp only [List.length_append, List.length_take]
    omega

/-- Witness for `final_deck_amended`: a 99-card composition keeps
`totalCards = 100`, and a 100-card non-aggro composition with one spell to
cut lands on exactly 100. -/
theorem final_deck_amended_witness :
    (optimizeCuts (fallbackPlan "X")
      { basics := List.replicate 60 basicForest, nonBasics := []
        totalLands := 60, manaBase := fun _ => 0 }
      { creatures := List.replicate 36 grizzlyBears, totalCreatures := 36
        categoryBreakdown := fun _ => 0 }
      { spells := [sampleSpell "A", sampleSpell "B", sampleSpell "C"]
        totalSpells := 3, categoryBreakdown := fun _ => 0 }
      {} CutsOutcome.failure).totalCards = 100 ∧
    (optimizeCuts (fallbackPlan "X")
      { basics := List.replicate 60 basicForest, nonBasics := []
        totalLands := 60, manaBase := fun _ => 0 }
      { creatures := List.replicate 36 grizzlyBears, totalCreatures := 36
        categoryBreakdown := fun _ => 0 }
      { spells := [sampleSpell "A", sampleSpell "B", sampleSpell "C",
          sampleSpell "D"]
        totalSpells := 4, categoryBreakdown := fun _ => 0 }
      {} CutsOutcome.failure).totalCards = 100 := by
  constructor
  · exact final_deck_amended.2.1 (fallbackPlan "X") _ _ _ {} CutsOutcome.failure
      (by simp [List.length_replicate]) (by simp [List.length_replicate])
      (by decide) (by simp [List.length_replicate])
  · exact final_deck_amended.2.2 (fallbackPlan "X") _ _ _ {}
      (by simp [List.length_replicate]) (by simp [List.length_replicate])
      (by decide) (by simp [List.length_replicate]) (by decide)
      (by simp [List.length_replicate])

/-- A land pool of 100 basics. -/
def lands100 : LandPool :=
  { basics := List.replicate 100 basicForest, nonBasics := []
    totalLands := 100, manaBase := fun _ => 0 }

/-- C2 counterexample: with 100 lands, no creatures and no spells (excess
`e = 1`) and an oracle cut list naming nothing, the cut stage removes zero
cards — not exactly `e`: the mechanical trim only ever cuts spells and
creatures, never lands, so the deck stays at 100 non-commander cards. -/
theorem cut_stage_can_under_cut :
    (optimizeCuts (fallbackPlan "X") lands100 emptyCreatures emptySpells
      {} (CutsOutcome.cuts [])).totalCards = 101 := by
  decide

/-- C2 amended: when the total exceeds 99 by `e` and the oracle path is
taken, the named cuts remove up to `e` cards; the mechanical trim then
removes the remaining shortfall `r` by dropping the *first* `r` spells when
at least `r` spells remain, otherwise dropping all spells and then the
first `r − spells` creatures; lands are never mechanically trimmed.
Exactly `e` cards are removed in total precisely when the named cuts plus
the remaining spells and creatures cover `e`; otherwise fewer are removed
(and trimming is from the front of the lists, not the end). -/
theorem cut_stage_amended (plan : CommanderPlan) (lands : LandPool)
    (creatures : CreaturePool) (spells : SpellPool) (commander : Card)
    (cs : List OracleCut) (e : Nat)
    (r : List CardPoolItem × List CardPoolItem × List CardPoolItem × Nat)
    (hl : lands.totalLands = lands.basics.length + lands.nonBasics.length)
    (hc : creatures.totalCreatures = creatures.creatures.length)
    (hs : spells.totalSpells = spells.spells.length)
    (hover : 99 <
      lands.totalLands + creatures.totalCreatures + spells.totalSpells)
    (he : e =
      lands.totalLands + creatures.totalCreatures + spells.totalSpells - 99)
    (hr : r = applyNamedCuts e cs (lands.basics ++ lands.nonBasics)
      creatures.creatures spells.spells 0) :
    (optimizeCuts plan lands creatures spells commander
        (CutsOutcome.cuts cs)).lands = r.1 ∧
    r.2.2.2 ≤ e ∧
    (optimizeCuts plan lands creatures spells commander
        (CutsOutcome.cuts cs)).lands.length +
      (optimizeCuts plan lands creatures spells commander
        (CutsOutcome.cuts cs)).creatures.length +
      (optimizeCuts plan lands creatures spells commander
        (CutsOutcome.cuts cs)).spells.length =
      lands.totalLands + creatures.totalCreatures + spells.totalSpells -
        (r.2.2.2 + min (e - r.2.2.2) (r.2.2.1.length + r.2.1.length)) ∧
    (e ≤ r.2.2.2 + r.2.2.1.length + r.2.1.length →
      (optimizeCuts plan lands creatures spells commander
          (CutsOutcome.cuts cs)).lands.length +
        (optimizeCuts plan lands creatures spells commander
          (CutsOutcome.cuts cs)).creatures.length +
        (optimizeCuts plan lands creatures spells commander
          (CutsOutcome.cuts cs)).spells.length = 99) ∧
    (e - r.2.2.2 ≤ r.2.2.1.length →
      (optimizeCuts plan lands creatures spells commander
          (CutsOutcome.cuts cs)).creatures = r.2.1 ∧
      (optimizeCuts plan lands creatures spells commander
          (CutsOutcome.cuts cs)).spells = r.2.2.1.drop (e - r.2.2.2)) ∧
    (r.2.2.1.length < e - r.2.2.2 →
      (optimizeCuts plan lands creatures spells commander
          (CutsOutcome.cuts cs)).spells = [] ∧
      (optimizeCuts plan lands creatures spells commander
          (CutsOutcome.cuts cs)).creatures =
        r.2.1.drop (e - r.2.2.2 - r.2.2.1.length)) := by
  subst he hr
  obtain ⟨hcons, h0le, hale⟩ := applyNamedCuts_conserve
    (lands.totalLands + creatures.totalCreatures + spells.totalSpells - 99) cs
    (lands.basics ++ lands.nonBasics) creatures.creatures spells.spells 0
    (Nat.zero_le _)
  rw [List.length_append] at hcons
  simp only [optimizeCuts]
  rw [if_pos (by omega :
    lands.totalLands + creatures.totalCreatures + spells.totalSpells > 99)]
  by_cases hlt : (applyNamedCuts
      (lands.totalLands + creatures.totalCreatures + spells.totalSpells - 99)
      cs (lands.basics ++ lands.nonBasics) creatures.creatures spells.spells
      0).2.2.2 <
    lands.totalLands + creatures.totalCreatures + spells.totalSpells - 99
  · rw [if_pos hlt]
    simp only [mechanicalTrim]
    by_cases hsl : (applyNamedCuts
        (lands.totalLands + creatures.totalCreatures + spells.totalSpells - 99)
        cs (lands.basics ++ lands.nonBasics) creatures.creatures spells.spells
        0).2.2.1.length ≥
      lands.totalLands + creatures.totalCreatures + spells.totalSpells - 99 -
        (applyNamedCuts
          (lands.totalLands + creatures.totalCreatures + spells.totalSpells
            - 99) cs (lands.basics ++ lands.nonBasics) creatures.creatures
          spells.spells 0).2.2.2
    · rw [if_pos hsl]
      refine ⟨trivial, hale, ?_, ?_, fun _ => ⟨rfl, rfl⟩,
        fun hcon => absurd hsl (by omega)⟩
      · simp only [FinalDeck.lands, FinalDeck.creatures, FinalDeck.spells,
          List.length_drop]
        omega
      · intro h4
        simp only [FinalDeck.lands, FinalDeck.creatures, FinalDeck.spells,
          List.length_drop]
        omega
    · rw [if_neg hsl]
      refine ⟨trivial, hale, ?_, ?_, fun h5 => absurd h5 (by omega),
        fun _ => ⟨rfl, rfl⟩⟩
      · simp only [FinalDeck.lands, FinalDeck.creatures, FinalDeck.spells,
          List.length_drop, List.length_nil]
        omega
      · intro h4
        simp only [FinalDeck.lands, FinalDeck.creatures, FinalDeck.spells,
          List.length_drop, List.length_nil]
        omega
  · rw [if_neg hlt]
    have heq : (applyNamedCuts
        (lands.totalLands + creatures.totalCreatures + spells.totalSpells - 99)
        cs (lands.basics ++ lands.nonBasics) creatures.creatures spells.spells
        0).2.2.2 =
      lands.totalLands + creatures.totalCreatures + spells.totalSpells - 99 :=
      by omega
    refine ⟨rfl, hale, ?_, ?_, ?_, fun hcon => absurd hcon (by omega)⟩
    · simp only [FinalDeck.lands, FinalDeck.creatures, FinalDeck.spells]
      omega
    · intro h4
      simp only [FinalDeck.lands, FinalDeck.creatures, FinalDeck.spells]
      omega
    · intro h5
      constructor
      · rfl
      · show _ = (applyNamedCuts _ _ _ _ _ _).2.2.1.drop _
        rw [heq, Nat.sub_self, List.drop_zero]

/-- Witness for `cut_stage_amended`: 102 cards (98 lands, 1 creature, 3
spells, excess 3) with an empty named-cut list are trimmed to exactly 99
non-commander cards, since the 4 remaining spells+creatures cover the
excess. -/
theorem cut_stage_amended_witness :
    (optimizeCuts (fallbackPlan "X")
      { basics := List.replicate 98 basicForest, nonBasics := []
        totalLands := 98, manaBase := fun _ => 0 }
      { creatures := [grizzlyBears], totalCreatures := 1
        categoryBreakdown := fun _ => 0 }
      { spells := [sampleSpell "A", sampleSpell "B", sampleSpell "C"]
        totalSpells := 3, categoryBreakdown := fun _ => 0 }
      {} (CutsOutcome.cuts [])).lands.length +
    (optimizeCuts (fallbackPlan "X")
      { basics := List.replicate 98 basicForest, nonBasics := []
        totalLands := 98, manaBase := fun _ => 0 }
      { creatures := [grizzlyBears], totalCreatures := 1
        categoryBreakdown := fun _ => 0 }
      { spells := [sampleSpell "A", sampleSpell "B", sampleSpell "C"]
        totalSpells := 3, categoryBreakdown := fun _ => 0 }
      {} (CutsOutcome.cuts [])).creatures.length +
    (optimizeCuts (fallbackPlan "X")
      { basics := List.replicate 98 basicForest, nonBasics := []
        totalLands := 98, manaBase := fun _ => 0 }
      { creatures := [grizzlyBears], totalCreatures := 1
        categoryBreakdown := fun _ => 0 }
      { spells := [sampleSpell "A", sampleSpell "B", sampleSpell "C"]
        totalSpells := 3, categoryBreakdown := fun _ => 0 }
      {} (CutsOutcome.cuts [])).spells.length = 99 :=
  (cut_stage_amended (fallbackPlan "X")
    { basics := List.replicate 98 basicForest, nonBasics := []
      totalLands := 98, manaBase := fun _ => 0 }
    { creatures := [grizzlyBears], totalCreatures := 1
      categoryBreakdown := fun _ => 0 }
    { spells := [sampleSpell "A", sampleSpell "B", sampleSpell "C"]
      totalSpells := 3, categoryBreakdown := fun _ => 0 }
    {} [] 3 _
    (by simp [List.length_replicate]) (by decide) (by decide) (by decide)
    (by decide) rfl).2.2.2.1 (by decide)

/-! ## Pool resolution (`getCommanderLegalPool`) and its cache -/

/-- Errors of pool resolution: the pool-size rejection, or an upstream
`ExternalServiceError` (carrying its message). -/
inductive PoolError where
  | poolTooLarge
  | upstream (message : String)
deriving DecidableEq, Repr

/-- `DeckBuilderService.CARD_POOL_LIMIT`. -/
def CARD_POOL_LIMIT : Nat := 20000

/-- `CACHE_DURATION` (10 minutes in milliseconds). -/
def CACHE_DURATION : Nat := 600000

/-- One cache entry (`{ data, expires }`). -/
structure CacheEntry where
  data : List CardPoolItem
  expires : Nat
deriving DecidableEq, Repr

/-- The pagination loop of `getCommanderLegalPool`. Each successful page
carries its cards and the `hasMore` flag; after appending a page, the
size check throws `poolTooLarge` at `≥ CARD_POOL_LIMIT` *before* looking
at `hasMore`. An erroring page propagates as an upstream error. The page
list models the sequence of `rawSearch` responses. -/
def poolLoop :
    List (Except String (List CardPoolItem × Bool)) → List CardPoolItem →
    Except PoolError (List CardPoolItem)
  | [], acc => .ok acc
  | p :: rest, acc =>
    match p with
    | .error e => .error (.upstream e)
    | .ok (cards, hasMore) =>
      let acc2 := acc ++ cards
      if acc2.length ≥ CARD_POOL_LIMIT then .error .poolTooLarge
      else if hasMore then poolLoop rest acc2
      else .ok acc2

/-- Build a well-formed page sequence from page contents: every page but
the last reports `hasMore = true`, the last reports `false`. -/
def mkPages :
    List (List CardPoolItem) → List (Except String (List CardPoolItem × Bool))
  | [] => []
  | [p] => [.ok (p, false)]
  | p :: q :: rest => .ok (p, true) :: mkPages (q :: rest)

/-- The fetch path of `getCommanderLegalPool` (after a cache miss):
fetch the commander, check its color identity, paginate, then cache. The
returned `Bool` records that a fetch was issued. -/
def fetchPool (cache : List (String × CacheEntry)) (commanderId : String)
    (now : Nat) (commanderRes : Except String Card)
    (pages : List (Except String (List CardPoolItem × Bool))) :
    Except PoolError (List CardPoolItem) × List (String × CacheEntry) × Bool :=
  match commanderRes with
  | .error e => (.error (.upstream e), cache, true)
  | .ok commander =>
    match commander.color_identity with
    | none => (.error (.upstream "Commander has no color identity"), cache, true)
    | some _ =>
      match poolLoop pages [] with
      | .error e => (.error e, cache, true)
      | .ok allCards =>
        (.ok allCards,
          (commanderId, ⟨allCards, now + CACHE_DURATION⟩) :: cache, true)

/-- `getCommanderLegalPool`, with the cache threaded explicitly: a cache
hit whose entry has `expires > now` returns the cached data without any
fetch; otherwise the fetch path runs (a `Map.set` is modelled by
prepending, which shadows older entries for `find?`). -/
def getCommanderLegalPool (cache : List (String × CacheEntry))
    (commanderId : String) (now : Nat) (commanderRes : Except String Card)
    (pages : List (Except String (List CardPoolItem × Bool))) :
    Except PoolError (List CardPoolItem) × List (String × CacheEntry) × Bool :=
  match cache.find? (fun e => e.1 == commanderId) with
  | some entry =>
    if entry.2.expires > now then (.ok entry.2.data, cache, false)
    else fetchPool cache commanderId now commanderRes pages
  | none => fetchPool cache commanderId now commanderRes pages

theorem poolLoop_mkPages (ps : List (List CardPoolItem)) :
    ∀ acc : List CardPoolItem, acc.length < CARD_POOL_LIMIT →
      poolLoop (mkPages ps) acc =
        if CARD_POOL_LIMIT ≤ (acc ++ ps.flatten).length then
          .error .poolTooLarge
        else .ok (acc ++ ps.flatten) := by
  induction ps with
  | nil =>
    intro acc hacc
    simp only [mkPages, poolLoop, List.flatten_nil, List.append_nil]
    rw [if_neg (by omega)]
  | cons p rest ih =>
    intro acc hacc
    cases rest with
    | nil =>
      simp only [mkPages, poolLoop, List.flatten_cons, List.flatten_nil,
        List.append_nil]
      by_cases h : (acc ++ p).length ≥ CARD_POOL_LIMIT
      · rw [if_pos h, if_pos h]
      · rw [if_neg h]
        simp only [Bool.false_eq_true, if_false]
        rw [if_neg h]
    | cons q rest2 =>
      simp only [mkPages, poolLoop]
      by_cases h : (acc ++ p).length ≥ CARD_POOL_LIMIT
      · rw [if_pos h, if_pos (by
          simp only [List.flatten_cons, List.length_append] at h ⊢
          omega)]
      · rw [if_neg h, if_true, ih (acc ++ p) (by omega)]
        simp only [List.flatten_cons, List.append_assoc]

/-- C6 counterexample: a pool of exactly 20,000 cards delivered in one
final page (`hasMore = false`, pagination complete, the ceiling never
exceeded) is still rejected with the pool-too-large error, because the
size check uses `≥ 20000` and runs before `hasMore` is consulted. -/
theorem pool_exactly_20000_rejected :
    (getCommanderLegalPool [] "cmdr" 0 (.ok {})
      (mkPages [List.replicate 20000 basicForest])).1 =
      .error PoolError.poolTooLarge := by
  simp only [getCommanderLegalPool, List.find?_nil, fetchPool]
  rw [poolLoop_mkPages _ _ (by simp [CARD_POOL_LIMIT])]
  rw [if_pos (by
    simp only [List.nil_append, List.flatten_cons, List.flatten_nil,
      List.append_nil, List.length_replicate, CARD_POOL_LIMIT]
    omega)]

/-- C6 amended: pool resolution fails with the pool-too-large error
exactly when the accumulated cards reach **or exceed** 20,000 at the end
of some page — even when that page is the last; it fails with an upstream
error when the commander fetch or a search page errors; and every pool
whose total stays strictly below 20,000 is returned in full (and
cached). -/
theorem pool_resolution_amended :
    (∀ (ps : List (List CardPoolItem)) (commanderId : String) (now : Nat)
      (commander : Card) (ci : List Char),
      commander.color_identity = some ci →
      (ps.flatten.length < 20000 →
        getCommanderLegalPool [] commanderId now (.ok commander)
          (mkPages ps) =
          (.ok ps.flatten,
            [(commanderId, ⟨ps.flatten, now + CACHE_DURATION⟩)], true)) ∧
      (20000 ≤ ps.flatten.length →
        (getCommanderLegalPool [] commanderId now (.ok commander)
          (mkPages ps)).1 = .error .poolTooLarge)) ∧
    (∀ (commanderId : String) (now : Nat) (e : String) pages,
      (getCommanderLegalPool [] commanderId now (.error e) pages).1 =
        .error (.upstream e)) ∧
    (∀ (commanderId : String) (now : Nat) (commander : Card) (ci : List Char)
      (e : String) rest,
      commander.color_identity = some ci →
      (getCommanderLegalPool [] commanderId now (.ok commander)
        (.error e :: rest)).1 = .error (.upstream e)) := by
  refine ⟨?_, ?_, ?_⟩
  · intro ps commanderId now commander ci hci
    constructor
    · intro hsmall
      simp only [getCommanderLegalPool, List.find?_nil, fetchPool, hci]
      rw [poolLoop_mkPages _ _ (by simp [CARD_POOL_LIMIT])]
      rw [if_neg (by simp only [List.nil_append, CARD_POOL_LIMIT]; omega)]
      simp
    · intro hbig
      simp only [getCommanderLegalPool, List.find?_nil, fetchPool, hci]
      rw [poolLoop_mkPages _ _ (by simp [CARD_POOL_LIMIT])]
      rw [if_pos (by simp only [List.nil_append, CARD_POOL_LIMIT]; omega)]
  · intro commanderId now e pages
    simp [getCommanderLegalPool, fetchPool]
  · intro commanderId now commander ci e rest hci
    simp [getCommanderLegalPool, fetchPool, hci, poolLoop]

/-- Witness for `pool_resolution_amended`: a one-page, one-card pool is
returned in full and cached; a failing commander fetch surfaces the
upstream error. -/
theorem pool_resolution_amended_witness :
    getCommanderLegalPool [] "cmdr" 0 (.ok {}) (mkPages [[basicForest]]) =
      (.ok [basicForest], [("cmdr", ⟨[basicForest], CACHE_DURATION⟩)],
        true) ∧
    (getCommanderLegalPool [] "cmdr" 0 (.error "db down") []).1 =
      .error (.upstream "db down") := by
  constructor
  · have h := (pool_resolution_amended.1 [[basicForest]] "cmdr" 0 {} []
      rfl).1 (by decide)
    simpa using h
  · exact pool_resolution_amended.2.1 "cmdr" 0 "db down" []

theorem fetchPool_inv (cache : List (String × CacheEntry))
    (commanderId : String) (now : Nat) (commanderRes : Except String Card)
    (pages : List (Except String (List CardPoolItem × Bool)))
    (l : List CardPoolItem)
    (h1 : (fetchPool cache commanderId now commanderRes pages).1 = .ok l) :
    fetchPool cache commanderId now commanderRes pages =
      (.ok l, (commanderId, ⟨l, now + CACHE_DURATION⟩) :: cache, true) := by
  cases commanderRes with
  | error e => simp [fetchPool] at h1
  | ok commander =>
    cases hci : commander.color_identity with
    | none => simp [fetchPool, hci] at h1
    | some ci =>
      cases hloop : poolLoop pages [] with
      | error e => simp [fetchPool, hci, hloop] at h1
      | ok allCards =>
        simp only [fetchPool, hci, hloop] at h1 ⊢
        obtain rfl : allCards = l := by
          simpa using h1
        rfl

/-- C8: calling pool resolution twice for the same commander id, the
second time strictly inside the 10-minute window of the first (successful,
fetching) call, returns the identical card list, leaves the cache
untouched, and issues no fetch — whatever the card database would have
answered on the second call. -/
theorem pool_cache_idempotent (cache0 : List (String × CacheEntry))
    (commanderId : String) (t0 t1 : Nat)
    (commanderRes commanderRes2 : Except String Card)
    (pages pages2 : List (Except String (List CardPoolItem × Bool)))
    (l : List CardPoolItem)
    (h1 : (getCommanderLegalPool cache0 commanderId t0 commanderRes
      pages).1 = .ok l)
    (h2 : (getCommanderLegalPool cache0 commanderId t0 commanderRes
      pages).2.2 = true)
    (ht : t1 < t0 + CACHE_DURATION) :
    getCommanderLegalPool
        (getCommanderLegalPool cache0 commanderId t0 commanderRes pages).2.1
        commanderId t1 commanderRes2 pages2 =
      (.ok l,
        (getCommanderLegalPool cache0 commanderId t0 commanderRes
          pages).2.1, false) := by
  have hcache : getCommanderLegalPool cache0 commanderId t0 commanderRes
      pages =
      (.ok l, (commanderId, ⟨l, t0 + CACHE_DURATION⟩) :: cache0, true) := by
    cases hfind : cache0.find? (fun e => e.1 == commanderId) with
    | none =>
      simp only [getCommanderLegalPool, hfind] at h1 ⊢
      exact fetchPool_inv cache0 commanderId t0 commanderRes pages l h1
    | some entry =>
      by_cases hexp : entry.2.expires > t0
      · simp only [getCommanderLegalPool, hfind, if_pos hexp] at h2
        exact absurd h2 (by simp)
      · simp only [getCommanderLegalPool, hfind, if_neg hexp] at h1 ⊢
        exact fetchPool_inv cache0 commanderId t0 commanderRes pages l h1
  rw [hcache]
  simp only [getCommanderLegalPool]
  rw [List.find?_cons_of_pos _ (by simp)]
  dsimp only
  rw [if_pos (by simpa using ht)]

/-- Witness for `pool_cache_idempotent`: after a one-card pool is fetched
at time 0, a second call at time 1 — with the database now failing —
still returns the same list from cache, with no fetch. -/
theorem pool_cache_idempotent_witness :
    getCommanderLegalPool
        (getCommanderLegalPool [] "c1" 0 (.ok {})
          (mkPages [[basicForest]])).2.1
        "c1" 1 (.error "db down") [] =
      (.ok [basicForest],
        (getCommanderLegalPool [] "c1" 0 (.ok {})
          (mkPages [[basicForest]])).2.1, false) :=
  pool_cache_idempotent [] "c1" 0 1 (.ok {}) (.error "db down")
    (mkPages [[basicForest]]) [] [basicForest] (by rfl) (by rfl)
    (by decide)

/-! ## The SSE event stream of `DeckBuilderController.buildDeck` -/

/-- The tagged union of records written to the SSE stream. -/
inductive BuildEvent where
  | connected (message : String)
  | stageStarted (stage message : String)
  | stageFinished (stage message : String)
  | progress (stage : String) (progress : Nat) (message : String)
  | complete (result : FinalDeck)
  | error (message : String)

/-- A terminal record: `complete` or `error`. -/
def isTerminal : BuildEvent → Bool
  | .complete _ => true
  | .error _ => true
  | _ => false

/-- The optional second `connected` record: the provider status message,
written only when truthy (JS: `if (providerValidation.message)`). -/
def providerMsgEvents (providerMessage : Option String) : List BuildEvent :=
  match providerMessage with
  | some m => if m = "" then [] else [BuildEvent.connected m]
  | none => []

/-- The sequence of `res.write` calls the controller performs for one
build, after successful request validation. `available`/`providerMessage`
model `validateProvider`'s result; `stageEvents` are the non-terminal
events the service emits through its listeners while `buildDeck` runs;
`result` is `buildDeck`'s outcome. On a failing build the service's
`catch` emits an `error` event (written by the `error` listener, which
also ends the stream) and rethrows, whereupon the controller's `catch`
writes a second `error` record after the stream has ended. -/
def controllerTrace (available : Bool) (providerMessage : Option String)
    (stageEvents : List BuildEvent) (result : Except String FinalDeck) :
    List BuildEvent :=
  let connectedEvt := BuildEvent.connected "Connected to deck builder service"
  if available = false then
    [connectedEvt,
      BuildEvent.error
        (match providerMessage with
         | some m => if m = "" then "AI provider not available" else m
         | none => "AI provider not available")]
  else
    connectedEvt :: providerMsgEvents providerMessage ++
      (match result with
       | .ok deck => stageEvents ++ [BuildEvent.complete deck]
       | .error m =>
         stageEvents ++ [BuildEvent.error m] ++ [BuildEvent.error m])

/-- C9 counterexample: a failing build writes the terminal `error` record
twice — once from the service's error listener and once from the
controller's `catch` (after the stream was already ended) — so the stream
does not contain exactly one terminal event. -/
theorem event_stream_double_error_on_failure :
    ((controllerTrace true (some "Local AI service available") []
      (.error "boom")).filter isTerminal).length = 2 := by
  rfl

theorem getLast?_cons_append_append_singleton (a x : α) (l₁ l₂ : List α) :
    (a :: (l₁ ++ (l₂ ++ [x]))).getLast? = some x := by
  rw [show a :: (l₁ ++ (l₂ ++ [x])) = (a :: (l₁ ++ l₂)) ++ [x] by simp]
  exact List.getLast?_concat _

/-- C9 amended: on a successful build the stream holds exactly one
terminal event — the final `complete` record, with nothing after it — and
a provider-validation failure likewise ends with a single `error` record;
but a failed build writes the `error` record twice (service listener,
then controller catch), the second write landing after the stream was
ended. -/
theorem event_stream_amended :
    (∀ (pm : Option String) (stageEvents : List BuildEvent)
      (deck : FinalDeck),
      (∀ e ∈ stageEvents, isTerminal e = false) →
      (controllerTrace true pm stageEvents (.ok deck)).filter isTerminal =
        [BuildEvent.complete deck] ∧
      (controllerTrace true pm stageEvents (.ok deck)).getLast? =
        some (BuildEvent.complete deck)) ∧
    (∀ (pm : Option String) (stageEvents : List BuildEvent) (m : String),
      (∀ e ∈ stageEvents, isTerminal e = false) →
      (controllerTrace true pm stageEvents (.error m)).filter isTerminal =
        [BuildEvent.error m, BuildEvent.error m]) ∧
    (∀ (pm : Option String) (stageEvents : List BuildEvent)
      (result : Except String FinalDeck),
      ((controllerTrace false pm stageEvents result).filter
        isTerminal).length = 1) := by
  have hfilter_stage : ∀ (stageEvents : List BuildEvent),
      (∀ e ∈ stageEvents, isTerminal e = false) →
      stageEvents.filter isTerminal = [] := by
    intro stageEvents h
    exact List.filter_eq_nil_iff.mpr (fun e he => by rw [h e he]; simp)
  have hpm : ∀ (pm : Option String),
      (providerMsgEvents pm).filter isTerminal = [] := by
    intro pm
    cases pm with
    | none => rfl
    | some m =>
      simp only [providerMsgEvents]
      by_cases hm : m = ""
      · rw [if_pos hm]
        rfl
      · rw [if_neg hm]
        rfl
  refine ⟨?_, ?_, ?_⟩
  · intro pm stageEvents deck hstage
    constructor
    · simp only [controllerTrace, if_neg (by simp : ¬(true = false)),
        List.filter_cons, List.filter_append, hfilter_stage stageEvents hstage,
        hpm pm]
      rfl
    · simp only [controllerTrace, if_neg (by simp : ¬(true = false))]
      exact getLast?_cons_append_append_singleton _ _ _ _
  · intro pm stageEvents m hstage
    simp only [controllerTrace, if_neg (by simp : ¬(true = false)),
      List.filter_cons, List.filter_append, hfilter_stage stageEvents hstage,
      hpm pm]
    rfl
  · intro pm stageEvents result
    simp only [controllerTrace, if_pos rfl]
    rfl

/-- A concrete FinalDeck for trace witnesses. -/
def sampleDeck : FinalDeck :=
  { commander := {}, lands := [basicForest], creatures := [grizzlyBears]
    spells := [sampleSpell "A"], totalCards := 4
    manaCurve := fun _ => 0, colorDistribution := fun _ => 0 }

/-- Witness for `event_stream_amended`: a successful build's stream,
with one stage event, carries exactly the one `complete` terminal record,
and it is last. -/
theorem event_stream_amended_witness :
    (controllerTrace true (some "Local AI service available")
      [BuildEvent.stageStarted "processCommander" "Analyzing..."]
      (.ok sampleDeck)).filter isTerminal = [BuildEvent.complete sampleDeck] ∧
    (controllerTrace true (some "Local AI service available")
      [BuildEvent.stageStarted "processCommander" "Analyzing..."]
      (.ok sampleDeck)).getLast? = some (BuildEvent.complete sampleDeck) :=
  event_stream_amended.1 (some "Local AI service available")
    [BuildEvent.stageStarted "processCommander" "Analyzing..."] sampleDeck
    (by
      intro e he
      rw [List.mem_singleton] at he
      subst he
      rfl)

end DeckNexus
